import Mathlib

/-!
Verification development for the MetricFlow query-planner repository.

The definitions below are a shallow embedding of the Python sources:
  * `src/metricflow/model/semantics/metric_semantics.py` (class `MetricSemantics`)
  * `src/dbt_semantic_interfaces/dbt_semantic_interfaces/objects/data_source.py`
    (class `DataSource`)
together with spec-modelled stand-ins for the parts of the repository that are
referenced from those files but whose sources are not available here
(`specs.py`, `metric.py`, `linkable_spec_resolver.py`,
`dataflow_plan_builder.py`).  Pure Python functions become Lean functions,
the mutable metric registry (`self._metrics`, a `Dict`) becomes an explicit
association list threaded through the operations, and code that raises
exceptions returns `Except`.
-/

namespace MetricFlow

/-- Embedding of `MetricReference` from `dbt_semantic_interfaces.references`: the value-typed
identifier of a metric, equal and hashable by its element name. -/
structure MetricReference where
  element_name : String
deriving DecidableEq, Repr

/-- Embedding of `MeasureReference` from `dbt_semantic_interfaces.references`. -/
structure MeasureReference where
  element_name : String
deriving DecidableEq, Repr

/-- A manifest-level where filter (`WhereFilter` / `PydanticWhereFilter`):
carries the SQL template string.  Only its identity matters here. -/
structure WhereFilter where
  where_sql_template : String
deriving DecidableEq, Repr

/-- Modelled from the spec: `WhereFilterSpec` (from `metricflow/specs.py`,
which is not under `src/`).  The spec describes filter combination as
AND-combination, so a `WhereFilterSpec` is modelled as the conjunction list
of the manifest filters it was built from. -/
abbrev WhereFilterSpec : Type := List WhereFilter

/-- Modelled from the spec: `WhereFilterSpec.create_from_where_filter` wraps a
single manifest filter (the `column_association_resolver` argument of the
Python function only affects column naming inside the rendered SQL and is
dropped). -/
def WhereFilterSpec.create_from_where_filter (f : WhereFilter) : WhereFilterSpec := [f]

/-- Modelled from the spec: `WhereFilterSpec.combine` is AND-combination, i.e.
concatenation of the conjunction lists, left conjunct first. -/
def WhereFilterSpec.combine (a b : WhereFilterSpec) : WhereFilterSpec :=
  List.append a b

/-- Embedding of `MetricType` from `dbt_semantic_interfaces.objects.metric`. -/
inductive MetricType where
  | SIMPLE
  | RATIO
  | CUMULATIVE
  | DERIVED
deriving DecidableEq, Repr

/-- Modelled from the spec: `MetricInput` (from `metric.py`, not under
`src/`) — one input metric of a DERIVED metric, carrying the per-input
filter, alias and time offsets that `metric_semantics.py` reads off it. -/
structure MetricInput where
  name : String
  filter : Option WhereFilter
  «alias» : Option String
  offset_window : Option String
  offset_to_grain : Option String
deriving DecidableEq, Repr

/-- Embedding of `MetricInput.as_reference`: the reference of the input metric. -/
def MetricInput.as_reference (i : MetricInput) : MetricReference :=
  { element_name := i.name }

/-- Modelled from the spec: `MetricInputMeasure` (from `metric.py`, not under
`src/`) — one input measure of a metric, carrying the measure-input-level
filter and alias that `measures_for_metric` reads off it. -/
structure MetricInputMeasure where
  name : String
  filter : Option WhereFilter
  «alias» : Option String
deriving DecidableEq, Repr

/-- Embedding of `MetricInputMeasure.measure_reference`. -/
def MetricInputMeasure.measure_reference (im : MetricInputMeasure) : MeasureReference :=
  { element_name := im.name }

/-- Modelled from the spec: the `type_params` of a metric; `metrics` is the
optional list of input metrics of a DERIVED metric
(`metric.type_params.metrics` in `metric_semantics.py`, read with `or []`). -/
structure MetricTypeParams where
  metrics : Option (List MetricInput)
deriving DecidableEq, Repr

/-- Modelled from the spec: `Metric` (from `metric.py`, not under `src/`).
`filter` is the metric-level filter; `input_measures` is the list of
`MetricInputMeasure` backing the metric (one for SIMPLE, per §4.4 of the
spec); `type_params.metrics` are the inputs of a DERIVED metric. -/
structure Metric where
  name : String
  type : MetricType
  filter : Option WhereFilter
  type_params : MetricTypeParams
  input_measures : List MetricInputMeasure
deriving DecidableEq, Repr

/-- Embedding of `Metric.measure_references`: references of the metric's input measures. -/
def Metric.measure_references (m : Metric) : List MeasureReference :=
  m.input_measures.map MetricInputMeasure.measure_reference

/-- Modelled from the spec: `Metric.input_metrics` — the input metrics of a
DERIVED metric (`type_params.metrics`, empty when absent). -/
def Metric.input_metrics (m : Metric) : List MetricInput :=
  m.type_params.metrics.getD []

/-- The error values raised by `MetricSemantics`
(`metricflow.errors.errors`). -/
inductive MetricSemanticsError where
  | MetricNotFoundError (msg : String)
  | DuplicateMetricError (msg : String)
  | NonExistentMeasureError (msg : String)
deriving DecidableEq, Repr

/-- The metric registry `self._metrics : Dict[MetricReference, Metric]` of
`MetricSemantics`, embedded as an association list in insertion order
(Python dicts preserve insertion order). -/
abbrev MetricRegistry : Type := List (MetricReference × Metric)

/-- Dict lookup `self._metrics[ref]` / membership `ref in self._metrics`. -/
def MetricRegistry.find? (r : MetricRegistry) (ref : MetricReference) : Option Metric :=
  (List.find? (fun p => decide (p.1 = ref)) r).map Prod.snd

/-- Membership test `ref in self._metrics`. -/
def MetricRegistry.containsRef (r : MetricRegistry) (ref : MetricReference) : Bool :=
  (MetricRegistry.find? r ref).isSome

/-- Embedding of `self.metric_references` (property of `MetricSemantics`): the list of
registered references, in registration order. -/
def MetricRegistry.metric_references (r : MetricRegistry) : List MetricReference :=
  r.map Prod.fst

/-- The message of the `MetricNotFoundError` raised by `get_metric` and
`get_metrics`. -/
def metric_not_found_message (ref : MetricReference) : String :=
  "Unable to find metric `" ++ ref.element_name ++ "`. Perhaps it has not been registered"

/-- Embedding of `MetricSemantics.get_metric` (metric_semantics.py lines 73-76): returns
the registered metric, raising `MetricNotFoundError` otherwise. -/
def get_metric (r : MetricRegistry) (ref : MetricReference) :
    Except MetricSemanticsError Metric :=
  match MetricRegistry.find? r ref with
  | some m => .ok m
  | none => .error (.MetricNotFoundError (metric_not_found_message ref))

/-- Embedding of `MetricSemantics.get_metrics` (lines 58-67): looks each reference up in
order, raising `MetricNotFoundError` at the first unregistered one. -/
def get_metrics (r : MetricRegistry) : List MetricReference →
    Except MetricSemanticsError (List Metric)
  | [] => .ok []
  | ref :: rest =>
    match MetricRegistry.find? r ref with
    | none => .error (.MetricNotFoundError (metric_not_found_message ref))
    | some m =>
      match get_metrics r rest with
      | .ok ms => .ok (m :: ms)
      | .error e => .error e

/-- Message of the `DuplicateMetricError` raised by `add_metric`. -/
def duplicate_metric_message (name : String) : String :=
  "Metric `" ++ name ++ "` has already been registered"

/-- Message of the `NonExistentMeasureError` raised by `add_metric`. -/
def non_existent_measure_message (name : String) (mr : MeasureReference) : String :=
  "Metric `" ++ name ++ "` references measure `" ++ mr.element_name ++
    "` which has not been registered"

/-- Embedding of `MetricSemantics.add_metric` (lines 78-88), with the mutable object state
made explicit: the result is the possibly-raised exception paired with the
registry the object holds afterwards.  The Python method raises (duplicate
check first, then the first missing measure in order) before the dict
assignment, so on a raise the registry is the input one; on success the new
entry is appended (dict insertion of a fresh key). -/
def add_metric_run (model_measures : List MeasureReference) (r : MetricRegistry)
    (metric : Metric) : Option MetricSemanticsError × MetricRegistry :=
  let metric_reference : MetricReference := { element_name := metric.name }
  if MetricRegistry.containsRef r metric_reference then
    (some (.DuplicateMetricError (duplicate_metric_message metric.name)), r)
  else
    match metric.measure_references.find? (fun mr => !(decide (mr ∈ model_measures))) with
    | some mr =>
      (some (.NonExistentMeasureError (non_existent_measure_message metric.name mr)), r)
    | none => (none, List.append r [(metric_reference, metric)])

/-- The method `add_metric` as a fallible registry transformer (exception as `Except`). -/
def add_metric (model_measures : List MeasureReference) (r : MetricRegistry)
    (metric : Metric) : Except MetricSemanticsError MetricRegistry :=
  match add_metric_run model_measures r metric with
  | (some e, _) => .error e
  | (none, r2) => .ok r2

/-- The registration loop of `MetricSemantics.__init__` (lines 33-34), folded
over an explicit starting registry. -/
def build_metrics_from (model_measures : List MeasureReference) :
    MetricRegistry → List Metric → Except MetricSemanticsError MetricRegistry
  | r, [] => .ok r
  | r, metric :: rest =>
    match add_metric model_measures r metric with
    | .error e => .error e
    | .ok r2 => build_metrics_from model_measures r2 rest

/-- Building the metric registry from a manifest's metric list: the
`__init__` loop starting from the empty dict. -/
def build_metrics (model_measures : List MeasureReference) (metrics : List Metric) :
    Except MetricSemanticsError MetricRegistry :=
  build_metrics_from model_measures [] metrics

/-- Embedding of `MetricSemantics.contains_cumulative_or_time_offset_metric`
(lines 120-130): scans the given references in order; true on the first
CUMULATIVE metric or the first DERIVED metric one of whose inputs has a
non-empty offset.  `get_metric` may raise, hence `Except`. -/
def contains_cumulative_or_time_offset_metric (r : MetricRegistry) :
    List MetricReference → Except MetricSemanticsError Bool
  | [] => .ok false
  | ref :: rest =>
    match MetricRegistry.find? r ref with
    | none => .error (.MetricNotFoundError (metric_not_found_message ref))
    | some metric =>
      if metric.type = MetricType.CUMULATIVE then .ok true
      else if metric.type = MetricType.DERIVED then
        if (metric.type_params.metrics.getD []).any
            (fun input_metric =>
              input_metric.offset_window.isSome || input_metric.offset_to_grain.isSome) then
          .ok true
        else contains_cumulative_or_time_offset_metric r rest
      else contains_cumulative_or_time_offset_metric r rest

/-- Embedding of `NonAdditiveDimensionSpec` attached to a measure spec; only its identity
matters for the verified properties. -/
structure NonAdditiveDimensionSpec where
  name : String
deriving DecidableEq, Repr

/-- Embedding of `MeasureSpec` from `metricflow/specs.py` (not under `src/`): element name
plus the optional non-additive dimension spec, as constructed by
`measures_for_metric`. -/
structure MeasureSpec where
  element_name : String
  non_additive_dimension_spec : Option NonAdditiveDimensionSpec
deriving DecidableEq, Repr

/-- Embedding of `MetricInputMeasureSpec` from `metricflow/specs.py` (not under `src/`):
the fields set by `measures_for_metric`. -/
structure MetricInputMeasureSpec where
  measure_spec : MeasureSpec
  constraint : Option WhereFilterSpec
  «alias» : Option String
deriving DecidableEq, Repr

/-- Embedding of `MetricSpec` from `metricflow/specs.py` (not under `src/`): the fields
set by `metric_input_specs_for_metric`. -/
structure MetricSpec where
  element_name : String
  constraint : Option WhereFilterSpec
  «alias» : Option String
  offset_window : Option String
  offset_to_grain : Option String
deriving DecidableEq, Repr

/-- The loop body of `MetricSemantics.measures_for_metric` (lines 99-116):
one `MetricInputMeasureSpec` per input measure, whose measure spec carries
the non-additive dimension spec looked up in the semantic-model index
(`non_additive_dimension_specs_by_measure`, passed here as a function), whose
constraint comes from the input measure's own filter, and whose alias is the
input measure's own alias. -/
def input_measure_spec (non_additive : MeasureReference → Option NonAdditiveDimensionSpec)
    (input_measure : MetricInputMeasure) : MetricInputMeasureSpec :=
  { measure_spec :=
      { element_name := input_measure.name
        non_additive_dimension_spec := non_additive input_measure.measure_reference }
    constraint :=
      match input_measure.filter with
      | some f => some (WhereFilterSpec.create_from_where_filter f)
      | none => none
    «alias» := input_measure.«alias» }

/-- Embedding of `MetricSemantics.measures_for_metric` (lines 90-118). -/
def measures_for_metric (r : MetricRegistry)
    (non_additive : MeasureReference → Option NonAdditiveDimensionSpec)
    (ref : MetricReference) : Except MetricSemanticsError (List MetricInputMeasureSpec) :=
  match MetricRegistry.find? r ref with
  | none => .error (.MetricNotFoundError (metric_not_found_message ref))
  | some metric => .ok (metric.input_measures.map (input_measure_spec non_additive))

/-- The constraint computed for one derived-metric input by
`metric_input_specs_for_metric` (lines 144-162): start from the input's own
filter, then AND the original metric's filter onto it when present. -/
def combined_input_filter (input_filter original_filter : Option WhereFilter) :
    Option WhereFilterSpec :=
  let combined :=
    match input_filter with
    | some f => some (WhereFilterSpec.create_from_where_filter f)
    | none => none
  match original_filter with
  | some g =>
    match combined with
    | some c => some (WhereFilterSpec.combine c (WhereFilterSpec.create_from_where_filter g))
    | none => some (WhereFilterSpec.create_from_where_filter g)
  | none => combined

/-- The loop of `MetricSemantics.metric_input_specs_for_metric`
(lines 141-171), over the remaining input metrics: each input's original
metric is looked up (`get_metric` may raise), the constraint combined, and a
`MetricSpec` carrying the input's alias and offsets appended. -/
def metric_input_specs_go (r : MetricRegistry) :
    List MetricInput → Except MetricSemanticsError (List MetricSpec)
  | [] => .ok []
  | input_metric :: rest =>
    match MetricRegistry.find? r input_metric.as_reference with
    | none =>
      .error (.MetricNotFoundError (metric_not_found_message input_metric.as_reference))
    | some original_metric_obj =>
      let spec : MetricSpec :=
        { element_name := input_metric.name
          constraint := combined_input_filter input_metric.filter original_metric_obj.filter
          «alias» := input_metric.«alias»
          offset_window := input_metric.offset_window
          offset_to_grain := input_metric.offset_to_grain }
      match metric_input_specs_go r rest with
      | .ok specs => .ok (spec :: specs)
      | .error e => .error e

/-- Embedding of `MetricSemantics.metric_input_specs_for_metric` (lines 132-172). -/
def metric_input_specs_for_metric (r : MetricRegistry) (ref : MetricReference) :
    Except MetricSemanticsError (List MetricSpec) :=
  match MetricRegistry.find? r ref with
  | none => .error (.MetricNotFoundError (metric_not_found_message ref))
  | some metric => metric_input_specs_go r metric.input_metrics

/-- Modelled from the spec: transitive expansion of a metric reference into
the references of all metrics it mentions (§4.4: DERIVED "recursively
expands each input metric"), with fuel for termination.  Used only to state
what the spec's phrase "expanded metric" means. -/
def expand_metric_references (r : MetricRegistry) : Nat → MetricReference → List MetricReference
  | 0, ref => [ref]
  | fuel + 1, ref =>
    ref ::
      (match MetricRegistry.find? r ref with
       | some m =>
         (m.type_params.metrics.getD []).flatMap
           (fun input_metric => expand_metric_references r fuel input_metric.as_reference)
       | none => [])

/-- Embedding of `ValidityParams` on a dimension
(`dbt_semantic_interfaces/objects/elements/dimension.py`, not under `src/`;
fields as read by `data_source.py`). -/
structure ValidityParams where
  is_start : Bool
  is_end : Bool
deriving DecidableEq, Repr

/-- Embedding of `Dimension` from `dbt_semantic_interfaces/objects/elements/dimension.py`
(not under `src/`): the fields read by `data_source.py`. -/
structure Dimension where
  name : String
  validity_params : Option ValidityParams
  is_partition : Bool
deriving DecidableEq, Repr

/-- Embedding of `DataSource` from `data_source.py` (lines 13-24), restricted to the
fields used by the validity-window accessors (`name`, `dimensions`). -/
structure DataSource where
  name : String
  dimensions : List Dimension
deriving DecidableEq, Repr

/-- The filter inside `DataSource.validity_start_dimension` (line 69):
dimensions whose `validity_params` are set with `is_start` (Python truthiness
of `dim.validity_params and dim.validity_params.is_start`). -/
def DataSource.validity_start_dims (ds : DataSource) : List Dimension :=
  ds.dimensions.filter
    (fun dim =>
      match dim.validity_params with
      | some vp => vp.is_start
      | none => false)

/-- The filter inside `DataSource.validity_end_dimension` (line 80). -/
def DataSource.validity_end_dims (ds : DataSource) : List Dimension :=
  ds.dimensions.filter
    (fun dim =>
      match dim.validity_params with
      | some vp => vp.is_end
      | none => false)

/-- Embedding of `DataSource.validity_start_dimension` (lines 66-75): `None` when no
validity-start dimension exists, the single one otherwise; the `assert
len == 1` becomes the error branch. -/
def DataSource.validity_start_dimension (ds : DataSource) : Except String (Option Dimension) :=
  match ds.validity_start_dims with
  | [] => .ok none
  | [d] => .ok (some d)
  | _ =>
    .error "Found more than one validity start dimension. This should have been blocked in validation!"

/-- Embedding of `DataSource.validity_end_dimension` (lines 77-86). -/
def DataSource.validity_end_dimension (ds : DataSource) : Except String (Option Dimension) :=
  match ds.validity_end_dims with
  | [] => .ok none
  | [d] => .ok (some d)
  | _ =>
    .error "Found more than one validity end dimension. This should have been blocked in validation!"

/-- A linkable instance spec (`LinkableInstanceSpec` from `metricflow/specs.py`,
not under `src/`): an element name reachable through a path of entity
links.  Only the identity and the qualified name matter for the verified
properties. -/
structure LinkableInstanceSpec where
  element_name : String
  entity_links : List String
deriving DecidableEq, Repr

/-- The qualified name of a linkable spec: the entity-link path followed by
the element name, joined by `__` (spec §4.2). -/
def LinkableInstanceSpec.qualified_name (s : LinkableInstanceSpec) : String :=
  String.intercalate "__" (List.append s.entity_links [s.element_name])

/-- Modelled from the spec: the semantic-index inputs of the linkable-spec
resolver (`ValidLinkableSpecResolver`, whose source is not under `src/`) —
the backing measures of each metric and the linkable specs reachable from
each measure (§4.2), already restricted by the property filters
`with_any_of` / `without_any_of`. -/
structure LinkableSpecIndex where
  measures_of : MetricReference → List MeasureReference
  reachable_from : MeasureReference → List LinkableInstanceSpec

/-- Modelled from the spec: the linkable specs of a single metric — the
specs reachable from every backing measure of the metric (§4.2). -/
def linkable_specs_for_metric (ix : LinkableSpecIndex) (m : MetricReference) :
    List LinkableInstanceSpec :=
  match ix.measures_of m with
  | [] => []
  | mr :: rest =>
    (ix.reachable_from mr).filter
      (fun s => rest.all (fun mr2 => decide (s ∈ ix.reachable_from mr2)))

/-- Modelled from the spec:
`ValidLinkableSpecResolver.get_linkable_elements_for_metrics` — the
intersection over the requested metrics of each metric's linkable specs
(§4.2: "returns the intersection of linkable specs reachable from every
backing measure of every metric"). -/
def get_linkable_elements_for_metrics (ix : LinkableSpecIndex)
    (metric_references : List MetricReference) : List LinkableInstanceSpec :=
  match metric_references with
  | [] => []
  | m :: rest =>
    (linkable_specs_for_metric ix m).filter
      (fun s => rest.all (fun m2 => decide (s ∈ linkable_specs_for_metric ix m2)))

/-- Embedding of `MetricSemantics.element_specs_for_metrics` (lines 42-56): the resolver's
result sorted ascending by qualified name (`sorted(..., key=lambda x:
x.qualified_name)`; Python `sorted` is an ascending stable merge sort). -/
def element_specs_for_metrics (ix : LinkableSpecIndex)
    (metric_references : List MetricReference) : List LinkableInstanceSpec :=
  (get_linkable_elements_for_metrics ix metric_references).mergeSort
    (fun a b => decide (a.qualified_name ≤ b.qualified_name))

/-- Embedding of `MAX_JOIN_HOPS` from `semantic_model_join_evaluator.py` (not under
`src/`; the spec gives its default). -/
def MAX_JOIN_HOPS : Nat := 2

/-- Entity cardinality roles (spec §4.3). -/
inductive EntityCardinality where
  | PRIMARY
  | UNIQUE
  | FOREIGN
deriving DecidableEq, Repr

/-- An entity as declared on a data source, with its cardinality role
(spec §4.3). -/
structure EntityDecl where
  name : String
  cardinality : EntityCardinality
deriving DecidableEq, Repr

/-- Modelled from the spec: the view of a data source the dataflow plan
builder needs (spec §2, §4.3) — its entities with roles, its measures and
its local dimensions. -/
structure SemanticDataSource where
  name : String
  entities : List EntityDecl
  measures : List String
  dimensions : List String
deriving DecidableEq, Repr

/-- Whether joining *to* this data source over entity `e` is valid: the
right side must hold `e` with cardinality PRIMARY or UNIQUE (spec §4.3). -/
def SemanticDataSource.on_one_side (ds : SemanticDataSource) (e : String) : Bool :=
  ds.entities.any
    (fun d =>
      decide (d.name = e ∧
        (d.cardinality = EntityCardinality.PRIMARY ∨ d.cardinality = EntityCardinality.UNIQUE)))

/-- Whether the data source holds entity `e` in any role. -/
def SemanticDataSource.has_entity (ds : SemanticDataSource) (e : String) : Bool :=
  ds.entities.any (fun d => decide (d.name = e))

/-- Modelled from the spec: all join paths from `cur` realising the given
entity-link sequence and ending at a data source holding the dimension
(§4.2-§4.3): each hop goes over the next entity link, which the current
source must hold, to a distinct data source holding it on the "one" side. -/
def join_paths (g : List SemanticDataSource) :
    SemanticDataSource → List String → String → List (List SemanticDataSource)
  | cur, [], dim => if decide (dim ∈ cur.dimensions) then [[]] else []
  | cur, e :: rest, dim =>
    if cur.has_entity e then
      (g.filter (fun t => t.on_one_side e && decide (t.name ≠ cur.name))).flatMap
        (fun t => (join_paths g t rest dim).map (fun p => t :: p))
    else []

/-- A dataflow plan node (spec §3), restricted to the node kinds produced by
the modelled single-measure `build_plan`. -/
inductive DataflowPlanNode where
  | ReadSqlSourceNode (source : String)
  | JoinToBaseNode (parent : DataflowPlanNode) (joined_sources : List (String × String))
  | AggregateMeasuresNode (parent : DataflowPlanNode) (measure : String)
      (group_by : List LinkableInstanceSpec)
  | ComputeMetricsNode (parent : DataflowPlanNode) (metric : String)
  | WriteToResultDataframeNode (parent : DataflowPlanNode)
deriving DecidableEq, Repr

/-- The dump `structure_text`: the textual structural dump of a plan (spec §6); a
deterministic rendering of the node tree. -/
def DataflowPlanNode.structure_text : DataflowPlanNode → String
  | .ReadSqlSourceNode source => "<ReadSqlSourceNode source=" ++ source ++ "/>"
  | .JoinToBaseNode parent joined_sources =>
    "<JoinToBaseNode joins=" ++
      String.intercalate ","
        (joined_sources.map (fun j => j.1 ++ ":" ++ j.2)) ++ ">" ++
      parent.structure_text ++ "</JoinToBaseNode>"
  | .AggregateMeasuresNode parent measure group_by =>
    "<AggregateMeasuresNode measure=" ++ measure ++ " group_by=" ++
      String.intercalate "," (group_by.map LinkableInstanceSpec.qualified_name) ++ ">" ++
      parent.structure_text ++ "</AggregateMeasuresNode>"
  | .ComputeMetricsNode parent metric =>
    "<ComputeMetricsNode metric=" ++ metric ++ ">" ++ parent.structure_text ++
      "</ComputeMetricsNode>"
  | .WriteToResultDataframeNode parent =>
    "<WriteToResultDataframeNode>" ++ parent.structure_text ++
      "</WriteToResultDataframeNode>"

/-- The query-resolution error of the plan builder. -/
inductive QueryError where
  | UnableToSatisfyQueryError (msg : String)
deriving DecidableEq, Repr

/-- Modelled from the spec: the query spec consumed by the modelled builder —
one metric backed by one measure of the same name, and the requested
dimensions (enough to express the claims about `build_plan`). -/
structure QuerySpec where
  metric_name : String
  dimension_specs : List LinkableInstanceSpec
deriving DecidableEq, Repr

/-- Modelled from the spec: resolving one requested dimension to a join path
(§4.3, §4.5 step 3b).  No path within `MAX_JOIN_HOPS` fails with
`UnableToSatisfyQueryError`; a unique path is used; several incomparable
multi-hop paths are a hard failure (§4.5: "Multi-hop ambiguous dimension:
fail with UnableToSatisfyQueryError; do not silently pick one"), while a
single-hop tie is broken by the catalog order of the data sources (§4.3). -/
def resolve_dimension (g : List SemanticDataSource) (src : SemanticDataSource)
    (dspec : LinkableInstanceSpec) : Except QueryError (List SemanticDataSource) :=
  if dspec.entity_links.length > MAX_JOIN_HOPS then
    .error (.UnableToSatisfyQueryError
      ("Dimension " ++ dspec.qualified_name ++ " requires more than MAX_JOIN_HOPS hops"))
  else
    match join_paths g src dspec.entity_links dspec.element_name with
    | [] =>
      .error (.UnableToSatisfyQueryError
        ("Dimension " ++ dspec.qualified_name ++ " is not reachable from " ++ src.name))
    | [p] => .ok p
    | p :: _ :: _ =>
      if dspec.entity_links.length ≥ 2 then
        .error (.UnableToSatisfyQueryError
          ("Dimension " ++ dspec.qualified_name ++ " is reachable by multiple join paths"))
      else .ok p

/-- Resolving all requested dimensions in order, failing at the first
unresolvable one (§7: the planner surfaces the first resolution error). -/
def resolve_dimensions (g : List SemanticDataSource) (src : SemanticDataSource) :
    List LinkableInstanceSpec → Except QueryError (List (List SemanticDataSource))
  | [] => .ok []
  | dspec :: rest =>
    match resolve_dimension g src dspec with
    | .error e => .error e
    | .ok p =>
      match resolve_dimensions g src rest with
      | .ok ps => .ok (p :: ps)
      | .error e => .error e

/-- The join descriptions of one resolved path: one `(entity, right source)`
pair per hop. -/
def path_join_descriptions (links : List String) (path : List SemanticDataSource) :
    List (String × String) :=
  links.zip (path.map SemanticDataSource.name)

/-- Modelled from the spec: `DataflowPlanBuilder.build_plan`
(`dataflow_plan_builder.py`, not under `src/`; §4.5), for a single-measure
metric query: read the measure's source, join each requested non-local
dimension along its resolved path, aggregate grouped by the requested
dimensions, compute the metric, and write the result.  Every resolution
failure aborts the plan with the error. -/
def build_plan (g : List SemanticDataSource) (q : QuerySpec) :
    Except QueryError DataflowPlanNode :=
  match g.find? (fun ds => decide (q.metric_name ∈ ds.measures)) with
  | none =>
    .error (.UnableToSatisfyQueryError
      ("No data source contains a measure for metric " ++ q.metric_name))
  | some src =>
    match resolve_dimensions g src q.dimension_specs with
    | .error e => .error e
    | .ok paths =>
      let joins :=
        (q.dimension_specs.zip paths).flatMap
          (fun dp => path_join_descriptions dp.1.entity_links dp.2)
      let acquired : DataflowPlanNode :=
        match joins with
        | [] => .ReadSqlSourceNode src.name
        | _ => .JoinToBaseNode (.ReadSqlSourceNode src.name) joins
      .ok (.WriteToResultDataframeNode
        (.ComputeMetricsNode
          (.AggregateMeasuresNode acquired q.metric_name q.dimension_specs)
          q.metric_name))

/-! ### Helper lemmas about the registry -/

theorem MetricRegistry.find?_eq_none_iff (r : MetricRegistry) (ref : MetricReference) :
    MetricRegistry.find? r ref = none ↔ ∀ p ∈ r, p.1 ≠ ref := by
  unfold MetricRegistry.find?
  rw [Option.map_eq_none', List.find?_eq_none]
  simp

theorem MetricRegistry.containsRef_eq_false_iff (r : MetricRegistry) (ref : MetricReference) :
    MetricRegistry.containsRef r ref = false ↔ ∀ p ∈ r, p.1 ≠ ref := by
  unfold MetricRegistry.containsRef
  rw [← MetricRegistry.find?_eq_none_iff]
  cases MetricRegistry.find? r ref <;> simp

theorem MetricRegistry.find?_append_single_of_ne (r : MetricRegistry)
    (q : MetricReference × Metric) (ref : MetricReference) (h : q.1 ≠ ref) :
    MetricRegistry.find? (List.append r [q]) ref = MetricRegistry.find? r ref := by
  unfold MetricRegistry.find?
  rw [List.append_eq, List.find?_append]
  cases hf : List.find? (fun p => decide (p.1 = ref)) r with
  | some m => simp
  | none =>
    simp only [Option.none_or]
    have : List.find? (fun p => decide (p.1 = ref)) [q] = none := by
      rw [List.find?_eq_none]
      intro a ha
      simp at ha
      subst ha
      simpa using h
    rw [this]

/-! ### C4: get_metric / get_metrics -/

/-- C4: `get_metric` returns the registered metric when the reference is in
the registry and raises `MetricNotFoundError` otherwise; `get_metrics`
either returns the corresponding metrics in order (same length, each entry
the registry lookup of the reference at the same position) or raises
`MetricNotFoundError` at the first unregistered reference. -/
theorem get_metric_and_get_metrics_spec (r : MetricRegistry) :
    (∀ ref m, MetricRegistry.find? r ref = some m → get_metric r ref = Except.ok m) ∧
    (∀ ref, MetricRegistry.find? r ref = none →
      get_metric r ref =
        Except.error (.MetricNotFoundError (metric_not_found_message ref))) ∧
    (∀ refs ms, get_metrics r refs = Except.ok ms →
      ms.length = refs.length ∧
      ∀ (i : Nat) (ref : MetricReference),
        refs[i]? = some ref → ms[i]? = MetricRegistry.find? r ref) ∧
    (∀ (refs : List MetricReference) (i : Nat) (ref : MetricReference),
      refs[i]? = some ref → MetricRegistry.find? r ref = none →
      (∀ (j : Nat) (ref2 : MetricReference),
        j < i → refs[j]? = some ref2 → (MetricRegistry.find? r ref2).isSome = true) →
      get_metrics r refs =
        Except.error (.MetricNotFoundError (metric_not_found_message ref))) := by
  refine ⟨?_, ?_, ?_, ?_⟩
  · intro ref m h
    unfold get_metric
    rw [h]
  · intro ref h
    unfold get_metric
    rw [h]
  · intro refs
    induction refs with
    | nil =>
      intro ms h
      unfold get_metrics at h
      cases h
      exact ⟨rfl, by intro i ref h; simp at h⟩
    | cons ref rest ih =>
      intro ms h
      unfold get_metrics at h
      cases hf : MetricRegistry.find? r ref with
      | none => rw [hf] at h; cases h
      | some m =>
        rw [hf] at h
        cases hrec : get_metrics r rest with
        | error e => rw [hrec] at h; cases h
        | ok ms2 =>
          rw [hrec] at h
          cases h
          obtain ⟨hlen, hidx⟩ := ih ms2 hrec
          refine ⟨by simp [hlen], ?_⟩
          intro i ref2 hi
          cases i with
          | zero =>
            simp at hi
            subst hi
            simpa using hf.symm
          | succ i =>
            simp only [List.getElem?_cons_succ] at hi ⊢
            exact hidx i ref2 hi
  · intro refs
    induction refs with
    | nil =>
      intro i ref h
      simp at h
    | cons ref0 rest ih =>
      intro i ref hi hnone hbefore
      cases i with
      | zero =>
        simp at hi
        subst hi
        unfold get_metrics
        rw [hnone]
      | succ i =>
        have h0 : (MetricRegistry.find? r ref0).isSome = true := by
          exact hbefore 0 ref0 (Nat.succ_pos i) (by simp)
        cases hf : MetricRegistry.find? r ref0 with
        | none => rw [hf] at h0; cases h0
        | some m =>
          simp only [List.getElem?_cons_succ] at hi
          have hrec := ih i ref hi hnone
            (by
              intro j ref2 hj hjget
              exact hbefore (j + 1) ref2 (Nat.succ_lt_succ hj) (by simpa using hjget))
          unfold get_metrics
          rw [hf, hrec]

/-- Concrete metrics and registry used by the witnesses. -/
def bookingsMetric : Metric :=
  { name := "bookings"
    type := MetricType.SIMPLE
    filter := none
    type_params := { metrics := none }
    input_measures := [{ name := "bookings", filter := none, «alias» := none }] }

/-- A two-entry registry for the witnesses. -/
def listingsMetric : Metric :=
  { name := "listings"
    type := MetricType.SIMPLE
    filter := none
    type_params := { metrics := none }
    input_measures := [{ name := "listings", filter := none, «alias» := none }] }

/-- Registry holding `bookings` and `listings`. -/
def witnessRegistry : MetricRegistry :=
  [({ element_name := "bookings" }, bookingsMetric),
   ({ element_name := "listings" }, listingsMetric)]

/-- Witness for C4 at a concrete registry: a registered lookup succeeds, an
unregistered batch lookup fails at the first missing reference. -/
theorem get_metric_and_get_metrics_spec_witness :
    get_metric witnessRegistry { element_name := "bookings" } = Except.ok bookingsMetric ∧
    get_metrics witnessRegistry
        [{ element_name := "bookings" }, { element_name := "nope" }] =
      Except.error
        (.MetricNotFoundError (metric_not_found_message { element_name := "nope" })) := by
  constructor
  · exact (get_metric_and_get_metrics_spec witnessRegistry).1
      { element_name := "bookings" } bookingsMetric (by decide)
  · refine (get_metric_and_get_metrics_spec witnessRegistry).2.2.2
      [{ element_name := "bookings" }, { element_name := "nope" }] 1
      { element_name := "nope" } (by decide) (by decide) ?_
    intro j ref2 hj hget
    have hj0 : j = 0 := by omega
    subst hj0
    simp at hget
    subst hget
    decide

/-! ### C5: add_metric checks and the build invariant -/

theorem add_metric_run_of_dup (model_measures : List MeasureReference) (r : MetricRegistry)
    (metric : Metric)
    (h : MetricRegistry.containsRef r { element_name := metric.name } = true) :
    add_metric_run model_measures r metric =
      (some (.DuplicateMetricError (duplicate_metric_message metric.name)), r) := by
  unfold add_metric_run
  simp [h]

theorem add_metric_run_of_missing (model_measures : List MeasureReference)
    (r : MetricRegistry) (metric : Metric) (mr : MeasureReference)
    (hc : MetricRegistry.containsRef r { element_name := metric.name } = false)
    (hf : metric.measure_references.find? (fun mr => !(decide (mr ∈ model_measures))) =
      some mr) :
    add_metric_run model_measures r metric =
      (some (.NonExistentMeasureError (non_existent_measure_message metric.name mr)), r) := by
  unfold add_metric_run
  simp [hc, hf]

theorem add_metric_run_of_ok (model_measures : List MeasureReference)
    (r : MetricRegistry) (metric : Metric)
    (hc : MetricRegistry.containsRef r { element_name := metric.name } = false)
    (hf : metric.measure_references.find? (fun mr => !(decide (mr ∈ model_measures))) =
      none) :
    add_metric_run model_measures r metric =
      (none, List.append r [({ element_name := metric.name }, metric)]) := by
  unfold add_metric_run
  simp [hc, hf]

theorem add_metric_ok_iff (model_measures : List MeasureReference) (r : MetricRegistry)
    (metric : Metric) (r2 : MetricRegistry) :
    add_metric model_measures r metric = Except.ok r2 ↔
      MetricRegistry.containsRef r { element_name := metric.name } = false ∧
      (∀ mr ∈ metric.measure_references, mr ∈ model_measures) ∧
      r2 = List.append r [({ element_name := metric.name }, metric)] := by
  unfold add_metric
  cases hc : MetricRegistry.containsRef r { element_name := metric.name } with
  | true =>
    rw [add_metric_run_of_dup model_measures r metric hc]
    simp [hc]
  | false =>
    cases hf : metric.measure_references.find?
        (fun mr => !(decide (mr ∈ model_measures))) with
    | some mr =>
      rw [add_metric_run_of_missing model_measures r metric mr hc hf]
      have hmem := List.mem_of_find?_eq_some hf
      have hpred := List.find?_some hf
      simp only [Bool.not_eq_eq_eq_not, Bool.not_true, decide_eq_false_iff_not] at hpred
      constructor
      · intro h; cases h
      · rintro ⟨-, hall, -⟩
        exact absurd (hall mr hmem) hpred
    | none =>
      rw [add_metric_run_of_ok model_measures r metric hc hf]
      rw [List.find?_eq_none] at hf
      constructor
      · intro h
        cases h
        refine ⟨rfl, ?_, rfl⟩
        intro mr hmr
        have := hf mr hmr
        simpa using this
      · rintro ⟨-, -, h⟩
        rw [h]

/-- The invariant maintained by the `__init__` registration loop. -/
def registry_invariant (model_measures : List MeasureReference) (r : MetricRegistry) : Prop :=
  (MetricRegistry.metric_references r).Nodup ∧
  ∀ p ∈ r, ∀ mr ∈ p.2.measure_references, mr ∈ model_measures

theorem build_metrics_from_invariant (model_measures : List MeasureReference)
    (metrics : List Metric) :
    ∀ r reg, build_metrics_from model_measures r metrics = Except.ok reg →
      registry_invariant model_measures r → registry_invariant model_measures reg := by
  induction metrics with
  | nil =>
    intro r reg h hr
    unfold build_metrics_from at h
    cases h
    exact hr
  | cons metric rest ih =>
    intro r reg h hr
    unfold build_metrics_from at h
    cases ha : add_metric model_measures r metric with
    | error e => rw [ha] at h; cases h
    | ok r2 =>
      rw [ha] at h
      refine ih r2 reg h ?_
      obtain ⟨hfresh, hall, hr2⟩ := (add_metric_ok_iff model_measures r metric r2).mp ha
      subst hr2
      obtain ⟨hnodup, hmeas⟩ := hr
      constructor
      · unfold MetricRegistry.metric_references at hnodup ⊢
        rw [List.append_eq, List.map_append, List.map_singleton]
        rw [List.nodup_append]
        refine ⟨hnodup, List.nodup_singleton _, ?_⟩
        intro a ha2
        simp only [List.mem_singleton]
        intro hb
        subst hb
        obtain ⟨p, hp, hp1⟩ := List.mem_map.mp ha2
        exact absurd hp1 ((MetricRegistry.containsRef_eq_false_iff r _).mp hfresh p hp)
      · intro p hp
        rw [List.append_eq, List.mem_append] at hp
        cases hp with
        | inl hp => exact hmeas p hp
        | inr hp =>
          simp only [List.mem_singleton] at hp
          subst hp
          exact hall

/-- C5: `add_metric` raises `DuplicateMetricError` on an already-registered
name, raises `NonExistentMeasureError` when some input measure reference is
not among the semantic model's measures, and otherwise appends the
registration; consequently a successful build from the manifest's metric
list yields a registry with no duplicate registrations in which every
metric's input measures exist. -/
theorem add_metric_and_build_spec (model_measures : List MeasureReference) :
    (∀ r metric,
      MetricRegistry.containsRef r { element_name := metric.name } = true →
      add_metric model_measures r metric =
        Except.error (.DuplicateMetricError (duplicate_metric_message metric.name))) ∧
    (∀ r metric,
      MetricRegistry.containsRef r { element_name := metric.name } = false →
      (∃ mr ∈ metric.measure_references, mr ∉ model_measures) →
      ∃ mr, add_metric model_measures r metric =
        Except.error
          (.NonExistentMeasureError (non_existent_measure_message metric.name mr))) ∧
    (∀ r metric,
      MetricRegistry.containsRef r { element_name := metric.name } = false →
      (∀ mr ∈ metric.measure_references, mr ∈ model_measures) →
      add_metric model_measures r metric =
        Except.ok (List.append r [({ element_name := metric.name }, metric)])) ∧
    (∀ metrics reg, build_metrics model_measures metrics = Except.ok reg →
      (MetricRegistry.metric_references reg).Nodup ∧
      ∀ p ∈ reg, ∀ mr ∈ p.2.measure_references, mr ∈ model_measures) := by
  refine ⟨?_, ?_, ?_, ?_⟩
  · intro r metric h
    unfold add_metric
    rw [add_metric_run_of_dup model_measures r metric h]
  · intro r metric hc hex
    obtain ⟨mr0, hmr0, hout⟩ := hex
    cases hf : metric.measure_references.find?
        (fun mr => !(decide (mr ∈ model_measures))) with
    | some mr =>
      refine ⟨mr, ?_⟩
      unfold add_metric
      rw [add_metric_run_of_missing model_measures r metric mr hc hf]
    | none =>
      rw [List.find?_eq_none] at hf
      have := hf mr0 hmr0
      simp at this
      exact absurd this hout
  · intro r metric hc hall
    exact (add_metric_ok_iff model_measures r metric _).mpr ⟨hc, hall, rfl⟩
  · intro metrics reg h
    exact (build_metrics_from_invariant model_measures metrics [] reg h
      ⟨List.nodup_nil, by intro p hp; cases hp⟩)

/-- Witness for C5 at concrete inputs: registering a fresh metric with an
existing measure succeeds; re-registering it raises `DuplicateMetricError`;
registering a metric over a missing measure raises
`NonExistentMeasureError`; and a successful one-metric build satisfies the
invariant. -/
theorem add_metric_and_build_spec_witness :
    add_metric [{ element_name := "bookings" }] [] bookingsMetric =
      Except.ok [({ element_name := "bookings" }, bookingsMetric)] ∧
    add_metric [{ element_name := "bookings" }]
        [({ element_name := "bookings" }, bookingsMetric)] bookingsMetric =
      Except.error (.DuplicateMetricError (duplicate_metric_message "bookings")) ∧
    (∃ mr, add_metric [{ element_name := "bookings" }] [] listingsMetric =
      Except.error
        (.NonExistentMeasureError (non_existent_measure_message "listings" mr))) ∧
    (MetricRegistry.metric_references
        [({ element_name := "bookings" }, bookingsMetric)]).Nodup := by
  refine ⟨?_, ?_, ?_, ?_⟩
  · have := (add_metric_and_build_spec [{ element_name := "bookings" }]).2.2.1
      [] bookingsMetric (by decide) (by decide)
    simpa using this
  · exact (add_metric_and_build_spec [{ element_name := "bookings" }]).1
      [({ element_name := "bookings" }, bookingsMetric)] bookingsMetric (by decide)
  · exact (add_metric_and_build_spec [{ element_name := "bookings" }]).2.1
      [] listingsMetric (by decide)
      ⟨{ element_name := "listings" }, by decide, by decide⟩
  · have := (add_metric_and_build_spec [{ element_name := "bookings" }]).2.2.2
      [bookingsMetric] [({ element_name := "bookings" }, bookingsMetric)] (by rfl)
    exact this.1

/-! ### C10: add_metric is atomic on error -/

/-- C10: whenever `add_metric` raises (`DuplicateMetricError` or
`NonExistentMeasureError`), the registry the object holds is unchanged, so
`metric_references` and every later `get_metric` / `get_metrics` call return
exactly what they returned before the failed call. -/
theorem add_metric_error_atomic (model_measures : List MeasureReference)
    (r : MetricRegistry) (metric : Metric) (e : MetricSemanticsError)
    (h : (add_metric_run model_measures r metric).1 = some e) :
    (add_metric_run model_measures r metric).2 = r ∧
    MetricRegistry.metric_references (add_metric_run model_measures r metric).2 =
      MetricRegistry.metric_references r ∧
    (∀ ref, get_metric (add_metric_run model_measures r metric).2 ref = get_metric r ref) ∧
    (∀ refs, get_metrics (add_metric_run model_measures r metric).2 refs =
      get_metrics r refs) := by
  have hsnd : (add_metric_run model_measures r metric).2 = r := by
    cases hc : MetricRegistry.containsRef r { element_name := metric.name } with
    | true => rw [add_metric_run_of_dup model_measures r metric hc]
    | false =>
      cases hf : metric.measure_references.find?
          (fun mr => !(decide (mr ∈ model_measures))) with
      | some mr => rw [add_metric_run_of_missing model_measures r metric mr hc hf]
      | none =>
        rw [add_metric_run_of_ok model_measures r metric hc hf] at h
        cases h
  refine ⟨hsnd, by rw [hsnd], by intro ref; rw [hsnd], by intro refs; rw [hsnd]⟩

/-- Witness for C10: a failing duplicate registration leaves the concrete
registry intact. -/
theorem add_metric_error_atomic_witness :
    (add_metric_run [{ element_name := "bookings" }]
        [({ element_name := "bookings" }, bookingsMetric)] bookingsMetric).1 =
      some (.DuplicateMetricError (duplicate_metric_message "bookings")) ∧
    (add_metric_run [{ element_name := "bookings" }]
        [({ element_name := "bookings" }, bookingsMetric)] bookingsMetric).2 =
      [({ element_name := "bookings" }, bookingsMetric)] := by
  refine ⟨by decide, ?_⟩
  exact (add_metric_error_atomic [{ element_name := "bookings" }]
    [({ element_name := "bookings" }, bookingsMetric)] bookingsMetric
    (.DuplicateMetricError (duplicate_metric_message "bookings")) (by decide)).1

/-! ### C7: validity window accessors -/

/-- C7: on a data source satisfying the validated-manifest invariant (at
most one validity-start and at most one validity-end dimension),
`validity_start_dimension` and `validity_end_dimension` return the head of
the respective filtered list — `none` when no such dimension exists, the
unique such dimension otherwise — and never hit the more-than-one
assertion. -/
theorem validity_dimensions_unique (ds : DataSource)
    (hs : ds.validity_start_dims.length ≤ 1)
    (he : ds.validity_end_dims.length ≤ 1) :
    ds.validity_start_dimension = Except.ok ds.validity_start_dims.head? ∧
    ds.validity_end_dimension = Except.ok ds.validity_end_dims.head? := by
  constructor
  · unfold DataSource.validity_start_dimension
    cases h : ds.validity_start_dims with
    | nil => rfl
    | cons d t =>
      cases t with
      | nil => rfl
      | cons d2 t2 =>
        rw [h] at hs
        simp at hs
  · unfold DataSource.validity_end_dimension
    cases h : ds.validity_end_dims with
    | nil => rfl
    | cons d t =>
      cases t with
      | nil => rfl
      | cons d2 t2 =>
        rw [h] at he
        simp at he

/-- A concrete data source with one validity-start dimension, one
validity-end dimension and one plain dimension. -/
def scdSource : DataSource :=
  { name := "listings_history"
    dimensions :=
      [{ name := "window_start"
         validity_params := some { is_start := true, is_end := false }
         is_partition := false },
       { name := "window_end"
         validity_params := some { is_start := false, is_end := true }
         is_partition := false },
       { name := "country", validity_params := none, is_partition := false }] }

/-- Witness for C7: on `scdSource` the precondition holds and both accessors
return the unique validity dimensions. -/
theorem validity_dimensions_unique_witness :
    scdSource.validity_start_dims.length ≤ 1 ∧
    scdSource.validity_start_dimension = Except.ok scdSource.validity_start_dims.head? ∧
    scdSource.validity_end_dimension = Except.ok scdSource.validity_end_dims.head? := by
  refine ⟨by decide, ?_⟩
  exact validity_dimensions_unique scdSource (by decide) (by decide)

/-! ### C1: contains_cumulative_or_time_offset_metric -/

/-- A CUMULATIVE metric over the `revenue` measure. -/
def trailingRevenueMetric : Metric :=
  { name := "trailing_revenue"
    type := MetricType.CUMULATIVE
    filter := none
    type_params := { metrics := none }
    input_measures := [{ name := "revenue", filter := none, «alias» := none }] }

/-- A DERIVED metric whose single input is the cumulative
`trailing_revenue`, with no offset on the input. -/
def revenueWrapperMetric : Metric :=
  { name := "revenue_wrapper"
    type := MetricType.DERIVED
    filter := none
    type_params :=
      { metrics :=
          some [{ name := "trailing_revenue", filter := none, «alias» := none,
                  offset_window := none, offset_to_grain := none }] }
    input_measures := [] }

/-- Registry holding the cumulative metric and its derived wrapper. -/
def nestedCumulativeRegistry : MetricRegistry :=
  [({ element_name := "trailing_revenue" }, trailingRevenueMetric),
   ({ element_name := "revenue_wrapper" }, revenueWrapperMetric)]

/-- Counterexample to C1 as stated: for the derived wrapper metric, the
expansion (depth 1 suffices) contains the CUMULATIVE `trailing_revenue`,
yet `contains_cumulative_or_time_offset_metric` returns `false` — the code
only examines the directly listed metrics and never recurses into nested
derived-metric expansion. -/
theorem contains_cumulative_ignores_nested_expansion :
    contains_cumulative_or_time_offset_metric nestedCumulativeRegistry
      [{ element_name := "revenue_wrapper" }] = Except.ok false ∧
    { element_name := "trailing_revenue" } ∈
      expand_metric_references nestedCumulativeRegistry 1
        { element_name := "revenue_wrapper" } ∧
    MetricRegistry.find? nestedCumulativeRegistry { element_name := "trailing_revenue" } =
      some trailingRevenueMetric ∧
    trailingRevenueMetric.type = MetricType.CUMULATIVE := by
  refine ⟨by rfl, by decide, by decide, rfl⟩

/-- C1 (amended): over registered references,
`contains_cumulative_or_time_offset_metric` returns true iff some *directly
listed* metric is CUMULATIVE, or some directly listed DERIVED metric has an
input with a non-empty offset; nested derived-metric expansion is not
examined. -/
theorem contains_cumulative_or_time_offset_top_level (r : MetricRegistry)
    (refs : List MetricReference)
    (h : ∀ ref ∈ refs, (MetricRegistry.find? r ref).isSome = true) :
    contains_cumulative_or_time_offset_metric r refs = Except.ok true ↔
      ∃ ref ∈ refs, ∃ m, MetricRegistry.find? r ref = some m ∧
        (m.type = MetricType.CUMULATIVE ∨
         (m.type = MetricType.DERIVED ∧
          ∃ im ∈ m.type_params.metrics.getD [],
            (im.offset_window.isSome = true ∨ im.offset_to_grain.isSome = true))) := by
  induction refs with
  | nil =>
    unfold contains_cumulative_or_time_offset_metric
    simp
  | cons ref rest ih =>
    have h0 := h ref (List.mem_cons_self _ _)
    obtain ⟨m, hm⟩ := Option.isSome_iff_exists.mp h0
    have hrest := ih (fun x hx => h x (List.mem_cons_of_mem _ hx))
    unfold contains_cumulative_or_time_offset_metric
    rw [hm]
    dsimp only
    by_cases hcum : m.type = MetricType.CUMULATIVE
    · rw [if_pos hcum]
      constructor
      · intro _
        exact ⟨ref, List.mem_cons_self _ _, m, hm, Or.inl hcum⟩
      · intro _
        rfl
    · rw [if_neg hcum]
      by_cases hder : m.type = MetricType.DERIVED
      · rw [if_pos hder]
        by_cases hany : (m.type_params.metrics.getD []).any
            (fun im => im.offset_window.isSome || im.offset_to_grain.isSome) = true
        · rw [if_pos hany]
          constructor
          · intro _
            obtain ⟨im, him, hp⟩ := List.any_eq_true.mp hany
            rw [Bool.or_eq_true _ _] at hp
            exact ⟨ref, List.mem_cons_self _ _, m, hm, Or.inr ⟨hder, im, him, hp⟩⟩
          · intro _
            rfl
        · rw [if_neg hany]
          rw [hrest]
          constructor
          · intro hx
            obtain ⟨r2, hr2, hq⟩ := hx
            exact ⟨r2, List.mem_cons_of_mem _ hr2, hq⟩
          · intro hx
            obtain ⟨r2, hr2, m2, hm2, hq⟩ := hx
            rcases List.mem_cons.mp hr2 with heq | hmem
            · subst heq
              rw [hm] at hm2
              cases hm2
              rcases hq with hc | ⟨-, im, him, hp⟩
              · exact absurd hc hcum
              · exact absurd
                  (List.any_eq_true.mpr ⟨im, him, (Bool.or_eq_true _ _).mpr hp⟩) hany
            · exact ⟨r2, hmem, m2, hm2, hq⟩
      · rw [if_neg hder]
        rw [hrest]
        constructor
        · intro hx
          obtain ⟨r2, hr2, hq⟩ := hx
          exact ⟨r2, List.mem_cons_of_mem _ hr2, hq⟩
        · intro hx
          obtain ⟨r2, hr2, m2, hm2, hq⟩ := hx
          rcases List.mem_cons.mp hr2 with heq | hmem
          · subst heq
            rw [hm] at hm2
            cases hm2
            rcases hq with hc | ⟨hd, -⟩
            · exact absurd hc hcum
            · exact absurd hd hder
          · exact ⟨r2, hmem, m2, hm2, hq⟩

/-- The offset input of the lag metric below. -/
def lagInput : MetricInput :=
  { name := "bookings"
    filter := none
    «alias» := none
    offset_window := some "5 days"
    offset_to_grain := none }

/-- A DERIVED metric whose input carries an offset window. -/
def bookingsLagMetric : Metric :=
  { name := "bookings_5_day_lag"
    type := MetricType.DERIVED
    filter := none
    type_params := { metrics := some [lagInput] }
    input_measures := [] }

/-- Registry holding `bookings` and the offset derived metric. -/
def offsetRegistry : MetricRegistry :=
  [({ element_name := "bookings" }, bookingsMetric),
   ({ element_name := "bookings_5_day_lag" }, bookingsLagMetric)]

/-- Witness for the amended C1: at a concrete registry with a derived
offset metric, the function returns true, matching the amended
characterisation. -/
theorem contains_cumulative_or_time_offset_top_level_witness :
    contains_cumulative_or_time_offset_metric offsetRegistry
        [{ element_name := "bookings_5_day_lag" }] = Except.ok true := by
  rw [contains_cumulative_or_time_offset_top_level offsetRegistry
    [{ element_name := "bookings_5_day_lag" }] (by decide)]
  refine ⟨{ element_name := "bookings_5_day_lag" }, by decide, bookingsLagMetric,
    by decide, Or.inr ⟨rfl, ?_⟩⟩
  exact ⟨lagInput, by decide, by decide⟩

/-! ### C6: measures_for_metric on SIMPLE metrics -/

/-- A metric-level where filter used in the counterexamples. -/
def luxFilter : WhereFilter := { where_sql_template := "listing__is_lux_latest" }

/-- A SIMPLE metric carrying a metric-level filter, whose single input
measure carries neither filter nor alias. -/
def filteredBookingsMetric : Metric :=
  { name := "filtered_bookings"
    type := MetricType.SIMPLE
    filter := some luxFilter
    type_params := { metrics := none }
    input_measures := [{ name := "bookings", filter := none, «alias» := none }] }

/-- Registry holding just `filtered_bookings`. -/
def filteredBookingsRegistry : MetricRegistry :=
  [({ element_name := "filtered_bookings" }, filteredBookingsMetric)]

/-- The spec actually returned by `measures_for_metric` for
`filtered_bookings`. -/
def filteredBookingsResultSpec : MetricInputMeasureSpec :=
  { measure_spec := { element_name := "bookings", non_additive_dimension_spec := none }
    constraint := none
    «alias» := none }

/-- Counterexample to C6 as stated: for the SIMPLE metric
`filtered_bookings`, whose metric-level filter is set and whose name is
`filtered_bookings`, the returned spec's constraint is `none` (not the
metric's filter) and its alias is `none` (not the metric's name):
`measures_for_metric` reads the filter and alias off the *input measure*,
not off the metric. -/
theorem measures_for_metric_counterexample :
    measures_for_metric filteredBookingsRegistry (fun _ => none)
        { element_name := "filtered_bookings" } =
      Except.ok [filteredBookingsResultSpec] ∧
    filteredBookingsMetric.filter = some luxFilter ∧
    filteredBookingsMetric.name = "filtered_bookings" ∧
    filteredBookingsResultSpec.constraint = none ∧
    filteredBookingsResultSpec.constraint ≠
      some (WhereFilterSpec.create_from_where_filter luxFilter) ∧
    filteredBookingsResultSpec.«alias» = none ∧
    filteredBookingsResultSpec.«alias» ≠ some filteredBookingsMetric.name := by
  refine ⟨by rfl, rfl, rfl, rfl, by decide, rfl, by decide⟩

/-- C6 (amended): for a registered SIMPLE metric with a single input
measure, `measures_for_metric` yields exactly one `MetricInputMeasureSpec`
whose measure spec names that input measure (with the semantic model's
non-additive-dimension lookup), whose constraint is the *input measure's*
filter (absent when it has none), and whose alias is the *input measure's*
alias. -/
theorem measures_for_simple_metric (r : MetricRegistry)
    (na : MeasureReference → Option NonAdditiveDimensionSpec)
    (ref : MetricReference) (m : Metric) (im : MetricInputMeasure)
    (hm : MetricRegistry.find? r ref = some m)
    (_hsimple : m.type = MetricType.SIMPLE)
    (him : m.input_measures = [im]) :
    measures_for_metric r na ref =
      Except.ok
        [{ measure_spec :=
             { element_name := im.name
               non_additive_dimension_spec := na im.measure_reference }
           constraint := Option.map WhereFilterSpec.create_from_where_filter im.filter
           «alias» := im.«alias» }] := by
  unfold measures_for_metric
  rw [hm]
  dsimp only
  rw [him]
  unfold input_measure_spec
  simp only [List.map_cons, List.map_nil]
  cases im.filter <;> rfl

/-- Witness for the amended C6: a SIMPLE metric whose input measure carries
its own filter and alias. -/
theorem measures_for_simple_metric_witness :
    measures_for_metric
        [({ element_name := "instant_bookings" },
          { name := "instant_bookings"
            type := MetricType.SIMPLE
            filter := none
            type_params := { metrics := none }
            input_measures :=
              [{ name := "bookings", filter := some luxFilter,
                 «alias» := some "lux_bookings" }] })]
        (fun _ => none) { element_name := "instant_bookings" } =
      Except.ok
        [{ measure_spec := { element_name := "bookings", non_additive_dimension_spec := none }
           constraint := some [luxFilter]
           «alias» := some "lux_bookings" }] := by
  exact measures_for_simple_metric _ (fun _ => none) { element_name := "instant_bookings" }
    _ { name := "bookings", filter := some luxFilter, «alias» := some "lux_bookings" }
    (by rfl) rfl rfl

/-! ### C2: metric_input_specs_for_metric on DERIVED metrics -/

/-- The constraint C2 claims for a derived-metric input: the
AND-combination, in order, of the derived metric's own filter, the input's
filter and the original metric's filter, with absent filters omitted. -/
def claimed_derived_input_constraint
    (derived_filter input_filter original_filter : Option WhereFilter) :
    Option WhereFilterSpec :=
  match derived_filter.toList ++ input_filter.toList ++ original_filter.toList with
  | [] => none
  | fs => some fs

/-- A where filter standing for the derived metric's own filter. -/
def instantFilter : WhereFilter := { where_sql_template := "booking__is_instant" }

/-- A derived-metric input with no filter, referencing `bookings`. -/
def plainBookingsInput : MetricInput :=
  { name := "bookings", filter := none, «alias» := none,
    offset_window := none, offset_to_grain := none }

/-- A DERIVED metric with a metric-level filter whose single input carries
no filter; the original `bookings` metric carries no filter either. -/
def instantShareMetric : Metric :=
  { name := "instant_share"
    type := MetricType.DERIVED
    filter := some instantFilter
    type_params := { metrics := some [plainBookingsInput] }
    input_measures := [] }

/-- Registry holding `bookings` and the filtered derived metric. -/
def instantShareRegistry : MetricRegistry :=
  [({ element_name := "bookings" }, bookingsMetric),
   ({ element_name := "instant_share" }, instantShareMetric)]

/-- Counterexample to C2 as stated: for the derived metric `instant_share`
whose own filter is set, the returned input spec's constraint is `none`,
whereas the claimed combination (derived ∧ input ∧ original) is
`some [instantFilter]` — the derived metric's own filter never enters the
per-input constraint. -/
theorem metric_input_specs_counterexample :
    metric_input_specs_for_metric instantShareRegistry
        { element_name := "instant_share" } =
      Except.ok
        [{ element_name := "bookings", constraint := none, «alias» := none,
           offset_window := none, offset_to_grain := none }] ∧
    instantShareMetric.filter = some instantFilter ∧
    claimed_derived_input_constraint instantShareMetric.filter
        plainBookingsInput.filter bookingsMetric.filter = some [instantFilter] ∧
    (none : Option WhereFilterSpec) ≠ some [instantFilter] := by
  refine ⟨by rfl, rfl, rfl, by decide⟩

theorem metric_input_specs_go_spec (r : MetricRegistry) (inputs : List MetricInput)
    (hins : ∀ im ∈ inputs, (MetricRegistry.find? r im.as_reference).isSome = true) :
    ∃ specs, metric_input_specs_go r inputs = Except.ok specs ∧
      specs.length = inputs.length ∧
      ∀ (i : Nat) (im : MetricInput), inputs[i]? = some im →
        ∃ orig, MetricRegistry.find? r im.as_reference = some orig ∧
          specs[i]? = some
            { element_name := im.name
              constraint := combined_input_filter im.filter orig.filter
              «alias» := im.«alias»
              offset_window := im.offset_window
              offset_to_grain := im.offset_to_grain } := by
  induction inputs with
  | nil =>
    refine ⟨[], rfl, rfl, ?_⟩
    intro i im him
    simp at him
  | cons im0 rest ih =>
    have h0 := hins im0 (List.mem_cons_self _ _)
    obtain ⟨orig0, horig0⟩ := Option.isSome_iff_exists.mp h0
    obtain ⟨specs0, hgo, hlen, hidx⟩ :=
      ih (fun x hx => hins x (List.mem_cons_of_mem _ hx))
    refine ⟨{ element_name := im0.name
              constraint := combined_input_filter im0.filter orig0.filter
              «alias» := im0.«alias»
              offset_window := im0.offset_window
              offset_to_grain := im0.offset_to_grain } :: specs0, ?_, by simp [hlen], ?_⟩
    · unfold metric_input_specs_go
      rw [horig0, hgo]
    · intro i im him
      cases i with
      | zero =>
        simp at him
        subst him
        exact ⟨orig0, horig0, by simp⟩
      | succ i =>
        simp only [List.getElem?_cons_succ] at him ⊢
        exact hidx i im him

/-- C2 (amended): for a registered DERIVED metric all of whose input metrics
are registered, `metric_input_specs_for_metric` returns one `MetricSpec` per
input metric, in order, carrying the input's alias, `offset_window` and
`offset_to_grain`, and whose constraint is the AND-combination, in order, of
the input's filter and the original metric's filter (absent filters
omitted); the derived metric's own filter does not enter. -/
theorem metric_input_specs_for_derived (r : MetricRegistry) (ref : MetricReference)
    (m : Metric) (hm : MetricRegistry.find? r ref = some m)
    (hins : ∀ im ∈ m.input_metrics, (MetricRegistry.find? r im.as_reference).isSome = true) :
    (∀ fi fo, combined_input_filter (some fi) (some fo) = some [fi, fo]) ∧
    (∀ fo, combined_input_filter none (some fo) = some [fo]) ∧
    (∀ fi, combined_input_filter (some fi) none = some [fi]) ∧
    combined_input_filter none none = none ∧
    ∃ specs, metric_input_specs_for_metric r ref = Except.ok specs ∧
      specs.length = m.input_metrics.length ∧
      ∀ (i : Nat) (im : MetricInput), m.input_metrics[i]? = some im →
        ∃ orig, MetricRegistry.find? r im.as_reference = some orig ∧
          specs[i]? = some
            { element_name := im.name
              constraint := combined_input_filter im.filter orig.filter
              «alias» := im.«alias»
              offset_window := im.offset_window
              offset_to_grain := im.offset_to_grain } := by
  refine ⟨fun fi fo => rfl, fun fo => rfl, fun fi => rfl, rfl, ?_⟩
  obtain ⟨specs, hgo, hlen, hidx⟩ := metric_input_specs_go_spec r m.input_metrics hins
  refine ⟨specs, ?_, hlen, hidx⟩
  unfold metric_input_specs_for_metric
  rw [hm]
  dsimp only
  exact hgo

/-- Original metric with its own filter, for the C2 witness. -/
def luxBookingsMetric : Metric :=
  { name := "lux_bookings"
    type := MetricType.SIMPLE
    filter := some luxFilter
    type_params := { metrics := none }
    input_measures := [{ name := "bookings", filter := none, «alias» := none }] }

/-- Derived-metric input carrying its own filter, referencing
`lux_bookings`. -/
def filteredLagInput : MetricInput :=
  { name := "lux_bookings", filter := some instantFilter, «alias» := some "lagged",
    offset_window := some "5 days", offset_to_grain := none }

/-- A DERIVED metric over `lux_bookings` whose input carries a filter and an
offset. -/
def luxLagMetric : Metric :=
  { name := "lux_lag"
    type := MetricType.DERIVED
    filter := none
    type_params := { metrics := some [filteredLagInput] }
    input_measures := [] }

/-- Registry for the C2 witness. -/
def luxLagRegistry : MetricRegistry :=
  [({ element_name := "lux_bookings" }, luxBookingsMetric),
   ({ element_name := "lux_lag" }, luxLagMetric)]

/-- Witness for the amended C2: at the concrete registry, the single
returned spec combines (input filter) AND (original metric filter), in that
order, and carries the input's alias and offsets. -/
theorem metric_input_specs_for_derived_witness :
    ∃ specs, metric_input_specs_for_metric luxLagRegistry
        { element_name := "lux_lag" } = Except.ok specs ∧
      specs[0]? = some
        { element_name := "lux_bookings"
          constraint := some [instantFilter, luxFilter]
          «alias» := some "lagged"
          offset_window := some "5 days"
          offset_to_grain := none } := by
  obtain ⟨-, -, -, -, specs, hok, hlen, hidx⟩ :=
    metric_input_specs_for_derived luxLagRegistry { element_name := "lux_lag" }
      luxLagMetric (by rfl) (by decide)
  obtain ⟨orig, horig, hspec⟩ := hidx 0 filteredLagInput (by rfl)
  refine ⟨specs, hok, ?_⟩
  have horig2 : orig = luxBookingsMetric := by
    have : MetricRegistry.find? luxLagRegistry filteredLagInput.as_reference =
        some luxBookingsMetric := by rfl
    rw [this] at horig
    cases horig
    rfl
  subst horig2
  exact hspec

/-! ### C3: element_specs_for_metrics -/

theorem mem_get_linkable_iff (ix : LinkableSpecIndex) (refs : List MetricReference)
    (h : refs ≠ []) (s : LinkableInstanceSpec) :
    s ∈ get_linkable_elements_for_metrics ix refs ↔
      ∀ m ∈ refs, s ∈ linkable_specs_for_metric ix m := by
  cases refs with
  | nil => exact absurd rfl h
  | cons m rest =>
    unfold get_linkable_elements_for_metrics
    rw [List.mem_filter]
    constructor
    · rintro ⟨hhead, hall⟩
      intro m2 hm2
      rcases List.mem_cons.mp hm2 with heq | hmem
      · subst heq; exact hhead
      · have := List.all_eq_true.mp hall m2 hmem
        simpa using this
    · intro hall
      refine ⟨hall m (List.mem_cons_self _ _), ?_⟩
      rw [List.all_eq_true]
      intro m2 hm2
      simpa using hall m2 (List.mem_cons_of_mem _ hm2)

theorem mem_element_specs_iff (ix : LinkableSpecIndex) (refs : List MetricReference)
    (s : LinkableInstanceSpec) :
    s ∈ element_specs_for_metrics ix refs ↔
      s ∈ get_linkable_elements_for_metrics ix refs := by
  unfold element_specs_for_metrics
  exact List.mem_mergeSort

/-- C3: for a nonempty set of metric references, `element_specs_for_metrics`
equals, as a set, the intersection over the single-metric results (the
linkable specs reachable from every backing measure of every metric), and
the returned sequence is sorted ascending by qualified name. -/
theorem element_specs_intersection_and_sorted (ix : LinkableSpecIndex)
    (refs : List MetricReference) (h : refs ≠ []) :
    (∀ s, s ∈ element_specs_for_metrics ix refs ↔
      ∀ m ∈ refs, s ∈ element_specs_for_metrics ix [m]) ∧
    List.Pairwise (fun a b => a.qualified_name ≤ b.qualified_name)
      (element_specs_for_metrics ix refs) := by
  constructor
  · intro s
    rw [mem_element_specs_iff, mem_get_linkable_iff ix refs h s]
    constructor
    · intro hall m hm
      rw [mem_element_specs_iff,
        mem_get_linkable_iff ix [m] (by simp) s]
      intro m2 hm2
      rcases List.mem_singleton.mp hm2 with heq
      subst heq
      exact hall _ hm
    · intro hall m hm
      have := hall m hm
      rw [mem_element_specs_iff, mem_get_linkable_iff ix [m] (by simp) s] at this
      exact this m (List.mem_singleton.mpr rfl)
  · unfold element_specs_for_metrics
    have hsorted := @List.sorted_mergeSort LinkableInstanceSpec
      (fun a b => decide (a.qualified_name ≤ b.qualified_name))
      (by
        intro a b c hab hbc
        simp only [decide_eq_true_eq] at hab hbc ⊢
        exact le_trans hab hbc)
      (by
        intro a b
        simpa using le_total a.qualified_name b.qualified_name)
      (get_linkable_elements_for_metrics ix refs)
    exact hsorted.imp (by intro a b hab; simpa using hab)

/-- Linkable specs used by the C3 witness. -/
def specIsInstant : LinkableInstanceSpec :=
  { element_name := "is_instant", entity_links := ["booking"] }

/-- Spec `listing__country_latest`. -/
def specCountry : LinkableInstanceSpec :=
  { element_name := "country_latest", entity_links := ["listing"] }

/-- Spec `user__home_state_latest`. -/
def specHomeState : LinkableInstanceSpec :=
  { element_name := "home_state_latest", entity_links := ["user"] }

/-- A concrete linkable-spec index: `bookings` reaches `booking__is_instant`
and `listing__country_latest`; `views` reaches `listing__country_latest`
and `user__home_state_latest`. -/
def witnessIndex : LinkableSpecIndex :=
  { measures_of := fun m =>
      if m.element_name = "bookings" then [{ element_name := "bookings" }]
      else if m.element_name = "views" then [{ element_name := "views" }]
      else []
    reachable_from := fun mr =>
      if mr.element_name = "bookings" then [specIsInstant, specCountry]
      else if mr.element_name = "views" then [specCountry, specHomeState]
      else [] }

/-- Witness for C3 at a concrete index and the metric pair
`[bookings, views]`: the intersection property instantiated at
`listing__country_latest`, and sortedness of the result. -/
theorem element_specs_intersection_and_sorted_witness :
    ([{ element_name := "bookings" }, { element_name := "views" }] ≠
      ([] : List MetricReference)) ∧
    (specCountry ∈ element_specs_for_metrics witnessIndex
        [{ element_name := "bookings" }, { element_name := "views" }] ↔
      ∀ m ∈ [({ element_name := "bookings" } : MetricReference),
              { element_name := "views" }],
        specCountry ∈ element_specs_for_metrics witnessIndex [m]) ∧
    List.Pairwise (fun a b => a.qualified_name ≤ b.qualified_name)
      (element_specs_for_metrics witnessIndex
        [{ element_name := "bookings" }, { element_name := "views" }]) := by
  have h := element_specs_intersection_and_sorted witnessIndex
    [{ element_name := "bookings" }, { element_name := "views" }] (by decide)
  exact ⟨by decide, h.1 specCountry, h.2⟩

/-! ### C8: ambiguous multi-hop join paths are a hard failure -/

theorem exists_cons_cons_of_two_mem {α : Type} {l : List α} {a b : α}
    (ha : a ∈ l) (hb : b ∈ l) (hne : a ≠ b) : ∃ x y t, l = x :: y :: t := by
  cases l with
  | nil => cases ha
  | cons x t =>
    cases t with
    | nil =>
      have ha2 := List.mem_singleton.mp ha
      have hb2 := List.mem_singleton.mp hb
      subst ha2
      subst hb2
      exact absurd rfl hne
    | cons y t2 => exact ⟨x, y, t2, rfl⟩

theorem resolve_dimension_ambiguous (g : List SemanticDataSource)
    (src : SemanticDataSource) (dspec : LinkableInstanceSpec)
    (p1 p2 : List SemanticDataSource)
    (hlen : dspec.entity_links.length = 2)
    (h1 : p1 ∈ join_paths g src dspec.entity_links dspec.element_name)
    (h2 : p2 ∈ join_paths g src dspec.entity_links dspec.element_name)
    (hne : p1 ≠ p2) :
    resolve_dimension g src dspec =
      Except.error (.UnableToSatisfyQueryError
        ("Dimension " ++ dspec.qualified_name ++
          " is reachable by multiple join paths")) := by
  obtain ⟨x, y, t, hxt⟩ := exists_cons_cons_of_two_mem h1 h2 hne
  unfold resolve_dimension
  rw [hxt, hlen]
  rw [if_neg (by decide)]
  dsimp only
  rw [if_pos (by decide)]

theorem resolve_dimensions_error_of_mem (g : List SemanticDataSource)
    (src : SemanticDataSource) (dims : List LinkableInstanceSpec)
    (hex : ∃ d ∈ dims, ∃ e, resolve_dimension g src d = Except.error e) :
    ∃ e, resolve_dimensions g src dims = Except.error e := by
  induction dims with
  | nil =>
    obtain ⟨d, hd, -⟩ := hex
    cases hd
  | cons d0 rest ih =>
    unfold resolve_dimensions
    cases hr : resolve_dimension g src d0 with
    | error e => exact ⟨e, rfl⟩
    | ok p =>
      obtain ⟨d, hd, e, he⟩ := hex
      rcases List.mem_cons.mp hd with heq | hmem
      · subst heq
        rw [hr] at he
        cases he
      · obtain ⟨e2, he2⟩ := ih ⟨d, hmem, e, he⟩
        rw [he2]
        exact ⟨e2, rfl⟩

/-- C8: when the requested linkable dimension is reachable from the
measure's source by two incomparable (distinct, equal-length 2-hop) join
paths, `build_plan` fails with `UnableToSatisfyQueryError` and returns no
plan, rather than silently picking one path. -/
theorem build_plan_ambiguous_multihop (g : List SemanticDataSource) (q : QuerySpec)
    (src : SemanticDataSource) (dspec : LinkableInstanceSpec)
    (p1 p2 : List SemanticDataSource)
    (hsrc : g.find? (fun ds => decide (q.metric_name ∈ ds.measures)) = some src)
    (hd : dspec ∈ q.dimension_specs)
    (hlen : dspec.entity_links.length = 2)
    (h1 : p1 ∈ join_paths g src dspec.entity_links dspec.element_name)
    (h2 : p2 ∈ join_paths g src dspec.entity_links dspec.element_name)
    (hne : p1 ≠ p2) :
    (∃ msg, build_plan g q = Except.error (.UnableToSatisfyQueryError msg)) ∧
    ∀ plan, build_plan g q ≠ Except.ok plan := by
  have hres := resolve_dimension_ambiguous g src dspec p1 p2 hlen h1 h2 hne
  obtain ⟨e, he⟩ := resolve_dimensions_error_of_mem g src q.dimension_specs
    ⟨dspec, hd, _, hres⟩
  have hbp : build_plan g q = Except.error e := by
    unfold build_plan
    rw [hsrc]
    dsimp only
    rw [he]
  obtain ⟨msg⟩ := e
  exact ⟨⟨msg, hbp⟩, by intro plan hplan; rw [hbp] at hplan; cases hplan⟩

/-- The measure source of the ambiguity witness: `views` with a foreign
`listing` entity. -/
def viewsSource : SemanticDataSource :=
  { name := "views_source"
    entities := [{ name := "listing", cardinality := EntityCardinality.FOREIGN }]
    measures := ["views"]
    dimensions := [] }

/-- First intermediate hop candidate. -/
def listingsA : SemanticDataSource :=
  { name := "listings_a"
    entities := [{ name := "listing", cardinality := EntityCardinality.PRIMARY },
                 { name := "user", cardinality := EntityCardinality.FOREIGN }]
    measures := []
    dimensions := [] }

/-- Second intermediate hop candidate. -/
def listingsB : SemanticDataSource :=
  { name := "listings_b"
    entities := [{ name := "listing", cardinality := EntityCardinality.PRIMARY },
                 { name := "user", cardinality := EntityCardinality.FOREIGN }]
    measures := []
    dimensions := [] }

/-- The final hop target holding `home_country`. -/
def usersSource : SemanticDataSource :=
  { name := "users_source"
    entities := [{ name := "user", cardinality := EntityCardinality.PRIMARY }]
    measures := []
    dimensions := ["home_country"] }

/-- The semantic graph with two incomparable 2-hop paths to
`listing__user__home_country`. -/
def ambiguousGraph : List SemanticDataSource :=
  [viewsSource, listingsA, listingsB, usersSource]

/-- The ambiguous query: `views` grouped by `listing__user__home_country`. -/
def ambiguousQuery : QuerySpec :=
  { metric_name := "views"
    dimension_specs := [{ element_name := "home_country",
                          entity_links := ["listing", "user"] }] }

/-- Witness for C8: on the concrete two-path graph, `build_plan` fails with
`UnableToSatisfyQueryError`. -/
theorem build_plan_ambiguous_multihop_witness :
    ∃ msg, build_plan ambiguousGraph ambiguousQuery =
      Except.error (.UnableToSatisfyQueryError msg) := by
  exact (build_plan_ambiguous_multihop ambiguousGraph ambiguousQuery viewsSource
    { element_name := "home_country", entity_links := ["listing", "user"] }
    [listingsA, usersSource] [listingsB, usersSource]
    (by rfl) (by decide) (by decide) (by decide) (by decide) (by decide)).1

/-! ### C9: the planner is deterministic -/

/-- C9: `build_plan` is a pure function of the semantic graph and the query
spec: two calls on the same inputs produce structurally identical plans, and
`structure_text` is identical on them.  (Byte-identity across process
restarts is a property of the runtime, not of the algorithm; in this
embedding, purity makes determinism hold by construction, matching §5 of
the spec: "single-threaded and purely functional".) -/
theorem build_plan_deterministic (g : List SemanticDataSource) (q : QuerySpec) :
    build_plan g q = build_plan g q ∧
    ∀ p1 p2, build_plan g q = Except.ok p1 → build_plan g q = Except.ok p2 →
      p1 = p2 ∧ p1.structure_text = p2.structure_text := by
  refine ⟨rfl, ?_⟩
  intro p1 p2 h1 h2
  rw [h1] at h2
  cases h2
  exact ⟨rfl, rfl⟩

/-- A single-source graph for the determinism witness. -/
def bookingsSource : SemanticDataSource :=
  { name := "bookings_source"
    entities := [{ name := "booking", cardinality := EntityCardinality.PRIMARY }]
    measures := ["bookings"]
    dimensions := ["is_instant"] }

/-- Query for `bookings` grouped by the local `is_instant` dimension. -/
def simpleQuery : QuerySpec :=
  { metric_name := "bookings"
    dimension_specs := [{ element_name := "is_instant", entity_links := [] }] }

/-- The plan produced for `simpleQuery`. -/
def simplePlan : DataflowPlanNode :=
  .WriteToResultDataframeNode
    (.ComputeMetricsNode
      (.AggregateMeasuresNode (.ReadSqlSourceNode "bookings_source") "bookings"
        [{ element_name := "is_instant", entity_links := [] }])
      "bookings")

/-- Witness for C9: the concrete simple query builds `simplePlan`, and the
two calls agree on the plan and on its `structure_text`. -/
theorem build_plan_deterministic_witness :
    build_plan [bookingsSource] simpleQuery = Except.ok simplePlan ∧
    simplePlan = simplePlan ∧
    simplePlan.structure_text = simplePlan.structure_text := by
  have hok : build_plan [bookingsSource] simpleQuery = Except.ok simplePlan := by rfl
  exact ⟨hok, (build_plan_deterministic [bookingsSource] simpleQuery).2
    simplePlan simplePlan hok hok⟩

end MetricFlow
